import Mathlib

/-!
# Verification of the git-hooks-installer security core

Shallow embedding of the security modules of the repository
(`security/file_tracker.py`, `security/secure_git_wrapper.py`,
`security/repository_validator.py`).

External effects are made explicit:
* the filesystem is a function `String → Option Nat` giving the size of an
  existing file at a (normalized, repo-joined) path, `none` when absent;
* subprocess outputs (`git status --porcelain`, `git diff --cached
  --name-only`, `git branch --list`, `git config`, `git show-ref`,
  `git ls-files`) are inputs to the embedded functions;
* Python exceptions become `Except String`.

Python `pathlib` path normalization (`str(Path(p))` on POSIX) and Python
`re` anchoring semantics (`$` also matches just before one trailing
newline) are modelled explicitly, since the source relies on both.
String primitives are implemented structurally on `List Char` so that
every definition evaluates inside the kernel.
-/

set_option autoImplicit false
set_option maxRecDepth 8192

namespace GitHooks

/-! ## String primitives (kernel-computable models of the Python ones) -/

/-- Split a character list at every occurrence of `sep`
(`str.split(sep)` semantics: `n` separators give `n+1` pieces). -/
def splitOnChar (sep : Char) : List Char → List (List Char)
  | [] => [[]]
  | c :: cs =>
    let r := splitOnChar sep cs
    if c = sep then [] :: r
    else
      match r with
      | [] => [[c]]
      | w :: ws => (c :: w) :: ws

/-- Join pieces with a single separator character. -/
def joinWith (sep : Char) : List (List Char) → List Char
  | [] => []
  | [w] => w
  | w :: ws => w ++ sep :: joinWith sep ws

/-- The whitespace characters stripped by Python's `str.strip()`. -/
def isSpaceChar (c : Char) : Bool :=
  c = ' ' || c = '\t' || c = '\n' || c = '\r' || c = '\x0b' || c = '\x0c'

/-- Python `str.strip()`. -/
def pyStrip (s : String) : String :=
  ⟨((s.data.dropWhile isSpaceChar).reverse.dropWhile isSpaceChar).reverse⟩

/-- Python `str.replace('\\', '/')` (single-character replacement). -/
def backslashToSlash (s : String) : String :=
  ⟨s.data.map (fun c => if c = '\\' then '/' else c)⟩

/-- Python `str.startswith(c)` for a one-character prefix. -/
def startsWithChar (c : Char) (s : String) : Bool :=
  s.data.head? = some c

/-- Python `len(s)` (counts code points, as `List.length` on `data`). -/
def pyLen (s : String) : Nat :=
  s.data.length

/-! ## Path model: `str(Path(p))` on POSIX, and `Path.parts` -/

/-- The components of a POSIX path: split on `/`, dropping empty components
and `"."` components, exactly as `pathlib.PurePosixPath` does (`".."` is
kept). -/
def pathComponents (s : String) : List (List Char) :=
  (splitOnChar '/' s.data).filter (fun c => c ≠ [] && c ≠ ['.'])

/-- Whether the path is absolute (`PurePosixPath.is_absolute`). -/
def isAbsolutePath (s : String) : Bool :=
  startsWithChar '/' s

/-- Embeds `str(pathlib.Path(s))` on POSIX: collapse duplicate and trailing
slashes and `"."` components; the empty path prints as `"."`. -/
def strPath (s : String) : String :=
  let comps := pathComponents s
  if isAbsolutePath s then ⟨'/' :: joinWith '/' comps⟩
  else if comps = [] then "."
  else ⟨joinWith '/' comps⟩

/-- Embeds `pathlib.Path(s).parts`: the components, with a leading `"/"` part for
absolute paths. -/
def pathParts (s : String) : List (List Char) :=
  if isAbsolutePath s then ['/'] :: pathComponents s else pathComponents s

example : strPath "docs//test.md" = "docs/test.md" := by decide
example : strPath "./docs/test.md" = "docs/test.md" := by decide
example : strPath "../outside.txt" = "../outside.txt" := by decide
example : pathParts "../outside.txt" = [['.', '.'], "outside.txt".data] := by decide
example : pathParts "/etc/passwd" = [['/'], "etc".data, "passwd".data] := by decide

/-! ## `security/file_tracker.py` — the Ledger -/

/-- Resource limits of `FileTracker` (`MAX_FILES`). -/
def MAX_FILES : Nat := 1000

/-- Embeds `FileTracker.MAX_DIRECTORIES`. -/
def MAX_DIRECTORIES : Nat := 100

/-- Embeds `FileTracker.MAX_FILE_SIZE` (10 MB). -/
def MAX_FILE_SIZE : Nat := 10 * 1024 * 1024

/-- Embeds `FileTracker.MAX_TOTAL_SIZE` (100 MB). -/
def MAX_TOTAL_SIZE : Nat := 100 * 1024 * 1024

/-- Mutable state of a `FileTracker` instance (the ledger).  `repo_path`
is left implicit: the filesystem oracle is keyed by the normalized
repo-relative path. -/
structure FileTracker where
  created_files : List String
  modified_files : List String
  created_directories : List String
  total_size_tracked : Nat
  deriving Repr, DecidableEq

/-- A fresh tracker (`FileTracker.__init__`). -/
def FileTracker.init : FileTracker :=
  ⟨[], [], [], 0⟩

/-- The path normalization used by the tracker:
`str(Path(file_path)).replace('\\', '/')`. -/
def trackerNormalize (file_path : String) : String :=
  backslashToSlash (strPath file_path)

/-- A filesystem oracle: `fs p = some n` means the file at path `p`
(joined under the repository root) exists with size `n` bytes. -/
abbrev FsOracle := String → Option Nat

/-- Embeds `FileTracker.track_file_creation`: resource-limit check, normalize,
size checks against the filesystem, then append to `created_files`.
Raising `ValueError` is modelled as `Except.error`; an error leaves the
caller's tracker unchanged (no entry recorded). -/
def track_file_creation (fs : FsOracle) (t : FileTracker) (file_path : String) :
    Except String FileTracker :=
  if t.created_files.length ≥ MAX_FILES then
    .error "Maximum file limit exceeded"
  else
    let normalized_path := trackerNormalize file_path
    match fs normalized_path with
    | some file_size =>
      if file_size > MAX_FILE_SIZE then
        .error "File too large"
      else if t.total_size_tracked + file_size > MAX_TOTAL_SIZE then
        .error "Total size limit exceeded"
      else
        .ok { t with
              created_files := t.created_files ++ [normalized_path],
              total_size_tracked := t.total_size_tracked + file_size }
    | none =>
      .ok { t with created_files := t.created_files ++ [normalized_path] }

/-- Embeds `FileTracker.track_file_modification`: same shape over
`modified_files`. -/
def track_file_modification (fs : FsOracle) (t : FileTracker) (file_path : String) :
    Except String FileTracker :=
  if t.modified_files.length ≥ MAX_FILES then
    .error "Maximum file limit exceeded"
  else
    let normalized_path := trackerNormalize file_path
    match fs normalized_path with
    | some file_size =>
      if file_size > MAX_FILE_SIZE then
        .error "File too large"
      else if t.total_size_tracked + file_size > MAX_TOTAL_SIZE then
        .error "Total size limit exceeded"
      else
        .ok { t with
              modified_files := t.modified_files ++ [normalized_path],
              total_size_tracked := t.total_size_tracked + file_size }
    | none =>
      .ok { t with modified_files := t.modified_files ++ [normalized_path] }

/-- Embeds `FileTracker.track_directory_creation`. -/
def track_directory_creation (t : FileTracker) (dir_path : String) :
    Except String FileTracker :=
  if t.created_directories.length ≥ MAX_DIRECTORIES then
    .error "Maximum directory limit exceeded"
  else
    let normalized_path := trackerNormalize dir_path
    .ok { t with created_directories := t.created_directories ++ [normalized_path] }

/-- Embeds `FileTracker.get_all_tracked_files`: `list(set(created + modified))` —
the de-duplicated union, modelled with `List.dedup`. -/
def get_all_tracked_files (t : FileTracker) : List String :=
  (t.created_files ++ t.modified_files).dedup

/-- The summary record returned by `FileTracker.get_summary`. -/
structure Summary where
  files_created : Nat
  files_modified : Nat
  directories_created : Nat
  total_files : Nat
  deriving Repr, DecidableEq

/-- Embeds `FileTracker.get_summary`. -/
def get_summary (t : FileTracker) : Summary :=
  ⟨t.created_files.length, t.modified_files.length,
   t.created_directories.length, (get_all_tracked_files t).length⟩

/-- The count and path-list fields of the JSON manifest produced by
`FileTracker.generate_commit_manifest` (timestamps and the constant
safety flags carry no ledger information and are omitted). -/
structure CommitManifest where
  files_created : Nat
  files_modified : Nat
  directories_created : Nat
  created_files : List String
  modified_files : List String
  created_directories : List String
  deriving Repr, DecidableEq

/-- Embeds `FileTracker.generate_commit_manifest` (`sorted(...)` on the path
lists). -/
def generate_commit_manifest (t : FileTracker) : CommitManifest :=
  ⟨t.created_files.length, t.modified_files.length,
   t.created_directories.length,
   t.created_files.mergeSort (fun a b => decide (a ≤ b)),
   t.modified_files.mergeSort (fun a b => decide (a ≤ b)),
   t.created_directories.mergeSort (fun a b => decide (a ≤ b))⟩

/-- The path normalization local to `validate_staging_area`:
`str(Path(path_str)).replace('\\', '/').strip()`. -/
def normalize_path (path_str : String) : String :=
  pyStrip (backslashToSlash (strPath path_str))

/-- The normalized staging set seen by `validate_staging_area`
(`set(normalize_path(f) for f in staged_files_raw if f.strip())`, as a
list before de-duplication, which does not change membership). -/
def stagedSet (stagedRaw : List String) : List String :=
  (stagedRaw.filter (fun f => pyStrip f ≠ "")).map normalize_path

/-- The normalized tracked set seen by `validate_staging_area`. -/
def trackedSet (t : FileTracker) : List String :=
  ((get_all_tracked_files t).filter (fun f => pyStrip f ≠ "")).map normalize_path

/-- Embeds `FileTracker.validate_staging_area`.  Inputs: the lines of
`git diff --cached --name-only` (`stagedRaw`) and an oracle `hasChanges`
telling whether `git status --porcelain <path>` printed anything for a
path.  Returns the boolean verdict together with the `actually_missing`
warning list (tracked-but-unstaged paths that still have pending
changes); the warning list is only logged by the source, never turned
into a failure. -/
def validate_staging_area (t : FileTracker) (stagedRaw : List String)
    (hasChanges : String → Bool) : Bool × List String :=
  let staged := (stagedSet stagedRaw).dedup
  let tracked := (trackedSet t).dedup
  let unexpected := staged.filter (fun f => f ∉ tracked)
  if unexpected.isEmpty then
    let missing := tracked.filter (fun f => f ∉ staged)
    let actually_missing := missing.filter hasChanges
    (true, actually_missing)
  else
    (false, [])

example :
    (validate_staging_area ⟨["a"], [], [], 0⟩ ["a", "c"] (fun _ => true)).1 = false := by
  decide

example :
    (validate_staging_area ⟨["a", "b"], [], [], 0⟩ ["a"] (fun _ => false)).1 = true := by
  decide

/-! ## `security/secure_git_wrapper.py` — the Command Runner -/

instance {ε α : Type} [DecidableEq ε] [DecidableEq α] : DecidableEq (Except ε α) :=
  fun x y =>
    match x, y with
    | .error a, .error b =>
      if h : a = b then .isTrue (by rw [h])
      else .isFalse (by intro hc; injection hc; exact h (by assumption))
    | .error _, .ok _ => .isFalse (by intro hc; injection hc)
    | .ok _, .error _ => .isFalse (by intro hc; injection hc)
    | .ok a, .ok b =>
      if h : a = b then .isTrue (by rw [h])
      else .isFalse (by intro hc; injection hc; exact h (by assumption))

/-- Embeds `SecureGitWrapper.ALLOWED_COMMANDS`: the whitelist of Git verbs and
their allowed flags, transcribed verbatim from the source. -/
def ALLOWED_COMMANDS : List (String × List String) :=
  [("status", ["--porcelain", "--show-stash"]),
   ("branch", ["--show-current", "--list", "-D"]),
   ("checkout", ["-b", "--quiet"]),
   ("add", []),
   ("commit", ["-m", "--quiet"]),
   ("push", ["origin"]),
   ("remote", ["get-url", "origin"]),
   ("init", ["--quiet"]),
   ("config", ["user.name", "user.email"]),
   ("show-ref", ["--verify", "--quiet"]),
   ("log", ["--oneline"]),
   ("diff", ["--cached", "--name-only"]),
   ("ls-files", ["--others", "--exclude-standard"]),
   ("reset", ["--hard", "HEAD", "--quiet"]),
   ("clean", ["-fd", "--quiet"])]

/-- The verbs of the whitelist. -/
def allowedVerbs : List String :=
  ALLOWED_COMMANDS.map Prod.fst

/-- The allowed flag set of a verb (empty when the verb is unknown). -/
def allowedFlags (git_command : String) : List String :=
  (ALLOWED_COMMANDS.lookup git_command).getD []

/-- Embeds `SecureGitWrapper._validate_command`: reject a verb outside the
whitelist, then reject the first `-`-prefixed argument that is not in
the verb's allowed-flag list.  `SecureGitError` becomes `Except.error`. -/
def validate_command (git_command : String) (args : List String) :
    Except String Unit :=
  match ALLOWED_COMMANDS.lookup git_command with
  | none => .error ("Git command not allowed: " ++ git_command)
  | some allowed_args =>
    match args.find? (fun a => startsWithChar '-' a && !allowed_args.contains a) with
    | some a => .error ("Argument not allowed for " ++ git_command ++ ": " ++ a)
    | none => .ok ()

/-- A character of the class `[a-zA-Z0-9/_-]` in
`SecureGitWrapper.BRANCH_NAME_PATTERN`. -/
def branchCharOk (c : Char) : Bool :=
  ('a' ≤ c && c ≤ 'z') || ('A' ≤ c && c ≤ 'Z') || ('0' ≤ c && c ≤ '9') ||
    c = '/' || c = '_' || c = '-'

/-- Drop one trailing newline, the position where Python's `$` anchor is
also allowed to match. -/
def stripTrailingNewline (s : String) : String :=
  if s.data.getLast? = some '\n' then ⟨s.data.dropLast⟩ else s

/-- Embeds `BRANCH_NAME_PATTERN.match(s)` for `^[a-zA-Z0-9/_-]+$` under Python
`re` semantics: the match succeeds iff the string — less at most one
trailing newline, which `$` tolerates — is non-empty and drawn from the
class (a newline elsewhere can never match, as `\n` is outside the
class). -/
def branch_pattern_match (s : String) : Bool :=
  (stripTrailingNewline s).data ≠ [] &&
    (stripTrailingNewline s).data.all branchCharOk

/-- Embeds `SecureGitWrapper._validate_branch_name`. -/
def validate_branch_name (branch_name : String) : Except String Unit :=
  if branch_name = "" then .error "Branch name cannot be empty"
  else if !branch_pattern_match branch_name then
    .error ("Invalid branch name format: " ++ branch_name)
  else if pyLen branch_name > 255 then .error "Branch name too long"
  else .ok ()

example : validate_branch_name "feat/new-feature" = .ok () := by decide
example : validate_branch_name "bad name" = .error "Invalid branch name format: bad name" := by
  decide

/-- Embeds `SecureGitWrapper._validate_file_path`, parameterized by the parts of
the resolved repository root (`Path.parts` of an absolute path, e.g.
`[['/'], "home".data, "repo".data]`): reject `..` components, and reject
absolute paths not under the root; a relative path without `..` always
passes, and the `Path` object (printed form) is returned. -/
def validate_file_path (repoParts : List (List Char)) (file_path : String) :
    Except String String :=
  let parts := pathParts file_path
  if ['.', '.'] ∈ parts then
    .error ("Path traversal detected: " ++ file_path)
  else if isAbsolutePath file_path then
    if repoParts.isPrefixOf parts then .ok (strPath file_path)
    else .error ("Absolute path outside repository: " ++ file_path)
  else
    .ok (strPath file_path)

/-- The subprocess outputs consumed by `SecureGitWrapper.add_file`:
what `git status --porcelain <path>` printed before the add, and the
lines of `git diff --cached --name-only` after it. -/
structure AddContext where
  statusOut : String
  stagedAfter : String

/-- The staged-name list `add_file` re-reads:
`[f.strip() for f in stdout.split('\n') if f.strip()]`. -/
def stagedNameList (stdout : String) : List String :=
  ((splitOnChar '\n' stdout.data).map (fun l => pyStrip ⟨l⟩)).filter (fun f => f ≠ "")

/-- Embeds `SecureGitWrapper.add_file`: validate the path, probe
`status --porcelain` for pending changes, run the add verb, and — only
when the file had pending changes — require the path to appear in the
re-read staged-name list.  Each `self.run(...)` call performs
`_validate_command` before execution. -/
def add_file (repoParts : List (List Char)) (ctx : AddContext) (file_path : String) :
    Except String Unit :=
  match validate_file_path repoParts file_path with
  | .error e => .error e
  | .ok validated_path =>
    let git_path := backslashToSlash validated_path
    match validate_command "status" ["--porcelain", git_path] with
    | .error e => .error e
    | .ok _ =>
      let file_has_changes := pyStrip ctx.statusOut ≠ ""
      match validate_command "add" [git_path] with
      | .error e => .error e
      | .ok _ =>
        if file_has_changes then
          match validate_command "diff" ["--cached", "--name-only"] with
          | .error e => .error e
          | .ok _ =>
            if git_path ∈ stagedNameList ctx.stagedAfter then .ok ()
            else .error ("Failed to stage file: " ++ file_path)
        else .ok ()

/-- Embeds `SecureGitWrapper._build_command` followed by execution: `commit`
returns the argv that reaches the subprocess, so "passed to the commit
verb unmodified" is checkable on the result. -/
def build_command (repo : String) (git_command : String) (args : List String) :
    List String :=
  ["git", "-C", repo, git_command] ++ args

/-- Embeds `SecureGitWrapper.commit`: empty-message check, 5000-character bound,
then `run("commit", "-m", message)` (whose `_validate_command` gate is
included); on success the full argv is returned. -/
def commit (repo : String) (message : String) : Except String (List String) :=
  if message = "" then .error "Commit message cannot be empty"
  else if pyLen message > 5000 then .error "Commit message too long"
  else
    match validate_command "commit" ["-m", message] with
    | .error e => .error e
    | .ok _ => .ok (build_command repo "commit" ["-m", message])

example : commit "r" "hello" = .ok ["git", "-C", "r", "commit", "-m", "hello"] := by decide

/-! ## `security/repository_validator.py` — the Validator -/

/-- The repository-state inputs consumed by `RepositoryValidator`: the
`.git` directory probe, the outputs and return codes of the `git`
invocations, and the untracked-file listing. -/
structure RepoState where
  gitDirExists : Bool
  statusPorcelain : String
  configNameRc : Nat
  configNameOut : String
  configEmailRc : Nat
  configEmailOut : String
  branchListOut : String → String
  currentBranch : String
  mainShowRefRc : Nat
  masterShowRefRc : Nat
  untrackedOut : List String

/-- Embeds `RepositoryValidator.validate_git_repository`: `.git` must exist. -/
def validate_git_repository (rs : RepoState) : Bool :=
  rs.gitDirExists

/-- Embeds `RepositoryValidator.validate_clean_working_tree`: passes iff
`git status --porcelain` printed nothing. -/
def validate_clean_working_tree (rs : RepoState) : Bool :=
  pyStrip rs.statusPorcelain = ""

/-- Embeds `RepositoryValidator.validate_git_config`: the boolean verdict is
`False` iff either `git config user.name` or `git config user.email`
exited non-zero (an empty-but-set value only appends a message without
failing the check, exactly as in the source). -/
def validate_git_config (rs : RepoState) : Bool :=
  !(rs.configNameRc ≠ 0 || rs.configEmailRc ≠ 0)

/-- A character of the class `[a-zA-Z0-9/_.*-]` used by
`validate_no_conflicting_branches` to vet the branch pattern. -/
def conflictPatternCharOk (c : Char) : Bool :=
  ('a' ≤ c && c ≤ 'z') || ('A' ≤ c && c ≤ 'Z') || ('0' ≤ c && c ≤ '9') ||
    c = '/' || c = '_' || c = '.' || c = '*' || c = '-'

/-- Embeds `re.match(r'^[a-zA-Z0-9/_.*-]+$', s)` under Python `re` semantics
(one trailing newline tolerated by `$`). -/
def conflict_pattern_match (s : String) : Bool :=
  (stripTrailingNewline s).data ≠ [] &&
    (stripTrailingNewline s).data.all conflictPatternCharOk

/-- Embeds `RepositoryValidator.validate_no_conflicting_branches`: vet the
pattern (regex and 255-character bound), then pass iff
`git branch --list <pattern>` printed nothing. -/
def validate_no_conflicting_branches (rs : RepoState) (branch_pattern : String) :
    Bool :=
  if branch_pattern = "" || !conflict_pattern_match branch_pattern then false
  else if pyLen branch_pattern > 255 then false
  else pyStrip (rs.branchListOut branch_pattern) = ""

/-- Embeds `RepositoryValidator.validate_branch_protection`: purely advisory —
always returns `True`, together with the detected main branch. -/
def validate_branch_protection (rs : RepoState) : Bool × Option String :=
  if rs.mainShowRefRc = 0 then (true, some "main")
  else if rs.masterShowRefRc = 0 then (true, some "master")
  else (true, none)

/-- Python `str.lower()` (ASCII model). -/
def pyLower (s : String) : String :=
  ⟨s.data.map Char.toLower⟩

/-- Embeds `pattern.lower().replace('*', '')`. -/
def patternLower (s : String) : String :=
  ⟨(pyLower s).data.filter (fun c => c ≠ '*')⟩

/-- Substring containment on character lists. -/
def isInfixOfChars : List Char → List Char → Bool
  | needle, [] => needle.isEmpty
  | needle, hay@(_ :: t) => needle.isPrefixOf hay || isInfixOfChars needle t

/-- Python `needle in hay` on strings (substring containment). -/
def pySubstr (needle hay : String) : Bool :=
  isInfixOfChars needle.data hay.data

/-- Embeds `Path(file_path).name` (the final component, `""` when there is
none). -/
def pathName (file_path : String) : String :=
  ⟨(pathComponents file_path).getLastD []⟩

/-- Embeds `RepositoryValidator.detect_sensitive_files`'s `sensitive_patterns`
list, verbatim. -/
def sensitive_patterns : List String :=
  [".env", "*.env", ".env.*",
   "*.key", "*.pem", "*.p12", "*.pfx",
   "config.json", "secrets.json", "credentials.json",
   "*.secret", "*.secrets",
   "password*", "*password*",
   "api_key*", "*api_key*",
   ".aws/credentials", ".ssh/id_*"]

/-- Embeds `RepositoryValidator.detect_sensitive_files`: keep each untracked
file whose lower-cased final name contains some pattern (lower-cased,
`*` stripped) as a substring. -/
def detect_sensitive_files (rs : RepoState) : List String :=
  rs.untrackedOut.filter (fun f =>
    sensitive_patterns.any (fun p => pySubstr (patternLower p) (pyLower (pathName f))))

/-- Embeds `RepositoryValidator.validate_all`: conjunction of the critical
checks (`.git` present, clean tree, git config), plus the
branch-conflict check when a truthy (non-`None`, non-empty) pattern is
supplied; the branch-protection advisory and the sensitive-file scan
are run but their results are discarded. -/
def validate_all (rs : RepoState) (branch_pattern : Option String) : Bool :=
  let validations := [validate_git_repository rs,
                      validate_clean_working_tree rs,
                      validate_git_config rs] ++
    (match branch_pattern with
     | some pat => if pat ≠ "" then [validate_no_conflicting_branches rs pat] else []
     | none => [])
  let _advisory := validate_branch_protection rs
  let _sensitive := detect_sensitive_files rs
  validations.all (fun b => b)

/-- A ledger at the file and directory ceilings (used by concrete
instantiations of the resource-ceiling results). -/
def fullTracker : FileTracker :=
  ⟨List.replicate 1000 "f", List.replicate 1000 "g", List.replicate 100 "d", 0⟩

/-- The Command Runner allow-list exactly as the spec's §4.2 sentence
enumerates it (13 verbs).  Written from the spec's words, to be compared
with the source's `ALLOWED_COMMANDS`. -/
def specClaimedVerbs : List String :=
  ["status", "branch", "checkout", "add", "commit", "push", "remote",
   "config", "show-ref", "log", "diff", "ls-files", "reset"]

/-- Embeds `Except.isError` shorthand for statements about raised exceptions. -/
def isError {ε α : Type} (x : Except ε α) : Prop :=
  match x with
  | .error _ => True
  | .ok _ => False

instance {ε α : Type} (x : Except ε α) : Decidable (isError x) := by
  unfold isError
  match x with
  | .error _ => exact inferInstanceAs (Decidable True)
  | .ok _ => exact inferInstanceAs (Decidable False)

@[simp] theorem isError_error {ε α : Type} (e : ε) :
    isError (Except.error e : Except ε α) :=
  trivial

@[simp] theorem isError_ok {ε α : Type} (a : α) :
    ¬ isError (Except.ok a : Except ε α) :=
  fun h => h

/-! ## Claim theorems -/

/-- Claim C1 (Reconciliation soundness): for every ledger and every staging
set returned by the index query, `validate_staging_area` returns `false`
if and only if the set staged-minus-tracked is non-empty; tracked files
missing from the staging set never cause a `false` result — after
filtering out paths with no pending working-tree change they appear at
most in the warning list. -/
theorem validate_staging_area_sound (t : FileTracker) (stagedRaw : List String)
    (hc : String → Bool) :
    ((validate_staging_area t stagedRaw hc).1 = false ↔
      ∃ f ∈ stagedSet stagedRaw, f ∉ trackedSet t) ∧
    (∀ f ∈ (validate_staging_area t stagedRaw hc).2,
      f ∈ trackedSet t ∧ f ∉ stagedSet stagedRaw ∧ hc f = true) := by
  have hval : validate_staging_area t stagedRaw hc =
      (if ((stagedSet stagedRaw).dedup.filter
            (fun f => f ∉ (trackedSet t).dedup)).isEmpty then
        (true, ((trackedSet t).dedup.filter
          (fun f => f ∉ (stagedSet stagedRaw).dedup)).filter hc)
      else (false, [])) := rfl
  have hkey : (((stagedSet stagedRaw).dedup.filter
      (fun f => f ∉ (trackedSet t).dedup)).isEmpty = true) ↔
      ¬ ∃ f ∈ stagedSet stagedRaw, f ∉ trackedSet t := by
    rw [List.isEmpty_iff, List.filter_eq_nil_iff]
    simp [List.mem_dedup]
  by_cases h : (((stagedSet stagedRaw).dedup.filter
      (fun f => f ∉ (trackedSet t).dedup)).isEmpty = true)
  · rw [hval, if_pos h]
    refine ⟨iff_of_false (by simp) (hkey.mp h), ?_⟩
    intro f hf
    simp only [List.mem_filter, List.mem_dedup, decide_eq_true_eq] at hf
    exact ⟨hf.1.1, hf.1.2, hf.2⟩
  · rw [hval, if_neg h]
    refine ⟨iff_of_true rfl (not_not.mp (mt hkey.mpr h)), ?_⟩
    intro f hf
    simp at hf

/-- Witness for C1 at a concrete input: with `a` tracked and `a, c`
staged, reconciliation fails. -/
theorem validate_staging_area_sound_witness :
    (validate_staging_area ⟨["a"], [], [], 0⟩ ["a", "c"] (fun _ => true)).1 = false :=
  (validate_staging_area_sound ⟨["a"], [], [], 0⟩ ["a", "c"] (fun _ => true)).1.mpr
    (by decide)

/-- Claim C2 counterexample: tracking `"../outside.txt"` on a fresh ledger
raises nothing — it returns normally and the traversal path is recorded
as a ledger entry, contradicting the claimed fatal error. -/
theorem track_file_creation_traversal_cex :
    track_file_creation (fun _ => none) FileTracker.init "../outside.txt" =
      .ok ⟨["../outside.txt"], [], [], 0⟩ := by
  decide

/-- Claim C2 amended: the ledger performs no traversal validation at all —
`track_file_creation` normalizes a `..` path and appends it to the
ledger without error (given room in the resource ceilings); path
traversal is rejected only by the Command Runner's
`_validate_file_path`, invoked at `add_file` time. -/
theorem track_file_creation_no_traversal_check (fs : FsOracle) (t : FileTracker)
    (repoParts : List (List Char))
    (hlen : t.created_files.length < MAX_FILES)
    (hfs : fs "../outside.txt" = none) :
    track_file_creation fs t "../outside.txt" =
      .ok { t with created_files := t.created_files ++ ["../outside.txt"] } ∧
    isError (validate_file_path repoParts "../outside.txt") := by
  constructor
  · have hn : trackerNormalize "../outside.txt" = "../outside.txt" := by decide
    simp only [track_file_creation, hn, hfs]
    rw [if_neg (by omega)]
  · have hv : validate_file_path repoParts "../outside.txt" =
        .error ("Path traversal detected: " ++ "../outside.txt") := rfl
    rw [hv]
    exact isError_error _

/-- Witness for the amended C2 at a concrete ledger and repository
root. -/
theorem track_file_creation_no_traversal_check_witness :
    FileTracker.init.created_files.length < MAX_FILES ∧
    (track_file_creation (fun _ => none) FileTracker.init "../outside.txt" =
      .ok { FileTracker.init with created_files := ["../outside.txt"] } ∧
    isError (validate_file_path [['/'], "repo".data] "../outside.txt")) :=
  ⟨by decide,
   track_file_creation_no_traversal_check (fun _ => none) FileTracker.init
     [['/'], "repo".data] (by decide) rfl⟩

/-- Claim C3 (Resource ceilings): a full created-file list (1000 entries)
makes the next `track_file_creation` raise, and likewise for
`track_file_modification`; a full directory list (100 entries) makes
`track_directory_creation` raise; an existing file over 10 MB, or one
that pushes the cumulative tracked size over 100 MB, makes
`track_file_creation` raise at track time.  In each case the result is
an error, so no entry is recorded (the caller's ledger is unchanged). -/
theorem resource_ceilings (fs : FsOracle) (t : FileTracker) (p : String) :
    (t.created_files.length ≥ MAX_FILES → isError (track_file_creation fs t p)) ∧
    (t.modified_files.length ≥ MAX_FILES → isError (track_file_modification fs t p)) ∧
    (t.created_directories.length ≥ MAX_DIRECTORIES →
      isError (track_directory_creation t p)) ∧
    (∀ sz, fs (trackerNormalize p) = some sz → sz > MAX_FILE_SIZE →
      isError (track_file_creation fs t p)) ∧
    (∀ sz, fs (trackerNormalize p) = some sz →
      t.total_size_tracked + sz > MAX_TOTAL_SIZE →
      isError (track_file_creation fs t p)) := by
  refine ⟨?_, ?_, ?_, ?_, ?_⟩
  · intro h
    simp only [track_file_creation]
    rw [if_pos h]
    exact isError_error _
  · intro h
    simp only [track_file_modification]
    rw [if_pos h]
    exact isError_error _
  · intro h
    simp only [track_directory_creation]
    rw [if_pos h]
    exact isError_error _
  · intro sz hsz hgt
    simp only [track_file_creation, hsz]
    by_cases hl : t.created_files.length ≥ MAX_FILES
    · rw [if_pos hl]
      exact isError_error _
    · rw [if_neg hl, if_pos hgt]
      exact isError_error _
  · intro sz hsz hgt
    simp only [track_file_creation, hsz]
    by_cases hl : t.created_files.length ≥ MAX_FILES
    · rw [if_pos hl]
      exact isError_error _
    · rw [if_neg hl]
      by_cases hbig : sz > MAX_FILE_SIZE
      · rw [if_pos hbig]
        exact isError_error _
      · rw [if_neg hbig, if_pos hgt]
        exact isError_error _

/-- Witness for C3: the 1001st created file, the 101st directory, and an
11 MB file each raise at concrete inputs. -/
theorem resource_ceilings_witness :
    (fullTracker.created_files.length ≥ MAX_FILES ∧
      isError (track_file_creation (fun _ => none) fullTracker "x")) ∧
    (fullTracker.created_directories.length ≥ MAX_DIRECTORIES ∧
      isError (track_directory_creation fullTracker "d2")) ∧
    ((fun _ => some 11534336 : FsOracle) (trackerNormalize "big.bin") =
        some 11534336 ∧ 11534336 > MAX_FILE_SIZE ∧
      isError (track_file_creation (fun _ => some 11534336) FileTracker.init
        "big.bin")) :=
  ⟨⟨by simp [fullTracker, MAX_FILES],
    (resource_ceilings (fun _ => none) fullTracker "x").1
      (by simp [fullTracker, MAX_FILES])⟩,
   ⟨by simp [fullTracker, MAX_DIRECTORIES],
    (resource_ceilings (fun _ => none) fullTracker "d2").2.2.1
      (by simp [fullTracker, MAX_DIRECTORIES])⟩,
   ⟨rfl, by decide,
    (resource_ceilings (fun _ => some 11534336) FileTracker.init "big.bin").2.2.2.1
      11534336 rfl (by decide)⟩⟩

/-- Embeds `lookup` succeeds exactly on the keys of an association list. -/
theorem lookup_isSome_iff_mem_map_fst {β : Type} (l : List (String × β)) (a : String) :
    (l.lookup a).isSome ↔ a ∈ l.map Prod.fst := by
  induction l with
  | nil => simp [List.lookup]
  | cons hd tl ih =>
    obtain ⟨k, v⟩ := hd
    by_cases h : a = k
    · subst h
      simp [List.lookup]
    · have hbeq : (a == k) = false := by simp [h]
      simp [List.lookup, hbeq, ih, h]

/-- The acceptance condition of `_validate_command`, shared by the
allow-list results. -/
theorem validate_command_ok_iff_aux (c : String) (args : List String) :
    validate_command c args = .ok () ↔
      ((ALLOWED_COMMANDS.lookup c).isSome ∧
       ∀ a ∈ args, startsWithChar '-' a = true → a ∈ allowedFlags c) := by
  unfold validate_command allowedFlags
  cases h : ALLOWED_COMMANDS.lookup c with
  | none =>
    simp [h]
  | some fl =>
    change (match args.find? (fun a => startsWithChar '-' a && !fl.contains a) with
            | some a => Except.error ("Argument not allowed for " ++ c ++ ": " ++ a)
            | none => Except.ok ()) = Except.ok () ↔ _
    cases hf : args.find? (fun a => startsWithChar '-' a && !fl.contains a) with
    | none =>
      rw [List.find?_eq_none] at hf
      simp only [Option.isSome_some, Option.getD_some, true_and]
      constructor
      · intro _ a ha hd
        have := hf a ha
        simp only [Bool.and_eq_true, Bool.not_eq_true', not_and, hd,
          forall_const] at this
        have hc : fl.contains a = true := by
          cases hco : fl.contains a with
          | false => exact absurd hco this
          | true => rfl
        simpa [List.contains, List.elem_iff] using hc
      · intro _
        trivial
    | some a =>
      have hpa := List.find?_some hf
      have hma := List.mem_of_find?_eq_some hf
      simp only [Bool.and_eq_true, Bool.not_eq_true'] at hpa
      simp only [Option.isSome_some, Option.getD_some, true_and]
      constructor
      · intro hcontra
        cases hcontra
      · intro hall
        have hcon : fl.contains a = true := by
          simpa [List.contains, List.elem_iff] using hall a hma hpa.1
        rw [hpa.2] at hcon
        cases hcon

/-- Claim C4 counterexample: `_validate_command` accepts the verb `init`
(and its flag `--quiet`), yet `init` is not in the 13-verb allow-list the
claim states as exact. -/
theorem validate_command_allowlist_cex :
    validate_command "init" ["--quiet"] = .ok () ∧ "init" ∉ specClaimedVerbs := by
  decide

/-- Claim C4 amended: `run` raises before execution iff the verb is outside
the fixed allow-list — which consists of the 13 claimed verbs *plus
`init` and `clean`* — or some `-`-prefixed argument is outside that
verb's allowed-flag set. -/
theorem validate_command_spec (c : String) (args : List String) :
    validate_command c args = .ok () ↔
      (c ∈ allowedVerbs ∧
       ∀ a ∈ args, startsWithChar '-' a = true → a ∈ allowedFlags c) := by
  rw [validate_command_ok_iff_aux]
  rw [show allowedVerbs = ALLOWED_COMMANDS.map Prod.fst from rfl,
    ← lookup_isSome_iff_mem_map_fst]

/-- Witness for C4: an allowed verb with an allowed flag is accepted. -/
theorem validate_command_spec_witness :
    validate_command "status" ["--porcelain"] = .ok () :=
  (validate_command_spec "status" ["--porcelain"]).mpr (by decide)

/-- Claim C5 counterexample: `"main\n"` contains a character outside
`[a-zA-Z0-9/_-]`, yet `_validate_branch_name` accepts it — Python's `$`
anchor also matches just before a trailing newline. -/
theorem validate_branch_name_newline_cex :
    validate_branch_name "main\n" = .ok () ∧
      ¬ "main\n".data.all branchCharOk = true := by
  decide

/-- Claim C5 amended: a `SecurityError` is raised if and only if the branch
name is empty, exceeds 255 characters, or — after removing at most one
trailing newline, which the Python `$` anchor tolerates — is empty or
contains a character outside alphanumerics, `/`, `_`, `-`; all other
names are accepted. -/
theorem validate_branch_name_spec (s : String) :
    validate_branch_name s = .ok () ↔
      ((stripTrailingNewline s).data ≠ [] ∧
       (stripTrailingNewline s).data.all branchCharOk = true ∧
       pyLen s ≤ 255) := by
  unfold validate_branch_name
  by_cases h0 : s = ""
  · subst h0
    exact iff_of_false (by simp) (by decide)
  · rw [if_neg h0]
    cases hbp : branch_pattern_match s with
    | false =>
      rw [if_pos (by simp [hbp])]
      refine iff_of_false (by simp) ?_
      rintro ⟨h1, h2, _⟩
      have htrue : branch_pattern_match s = true := by
        unfold branch_pattern_match
        simp [h1, h2]
      rw [hbp] at htrue
      cases htrue
    | true =>
      rw [if_neg (by simp [hbp])]
      unfold branch_pattern_match at hbp
      simp only [Bool.and_eq_true, decide_eq_true_eq] at hbp
      by_cases hl : pyLen s > 255
      · rw [if_pos hl]
        exact iff_of_false (by simp) (by rintro ⟨_, _, h3⟩; omega)
      · rw [if_neg hl]
        exact iff_of_true rfl ⟨hbp.1, hbp.2, by omega⟩

/-- Witness for the amended C5 at a concrete accepted name. -/
theorem validate_branch_name_spec_witness :
    validate_branch_name "feat/new-feature" = .ok () :=
  (validate_branch_name_spec "feat/new-feature").mpr (by decide)

/-- Claim C10 (implicit): command-argument validation only inspects
`-`-prefixed arguments — any argument list free of `-`-prefixed entries
is accepted for every allow-listed verb, so arbitrary positional strings
(paths, branch names, patterns) pass `_validate_command` unchecked. -/
theorem validate_command_positional_unchecked (c : String) (args : List String)
    (hc : c ∈ allowedVerbs)
    (hargs : ∀ a ∈ args, startsWithChar '-' a = false) :
    validate_command c args = .ok () := by
  rw [validate_command_ok_iff_aux]
  refine ⟨?_, ?_⟩
  · rw [lookup_isSome_iff_mem_map_fst]
    exact hc
  · intro a ha hd
    rw [hargs a ha] at hd
    cases hd

/-- Witness for C10: a traversal-shaped positional argument to the `add`
verb passes command validation. -/
theorem validate_command_positional_unchecked_witness :
    validate_command "add" ["../../etc/passwd"] = .ok () :=
  validate_command_positional_unchecked "add" ["../../etc/passwd"]
    (by decide) (by decide)

/-- Embeds `run("status", "--porcelain", path)` passes command validation for
any non-flag-like path. -/
theorem validate_command_status_ok (g : String)
    (hg : startsWithChar '-' g = false) :
    validate_command "status" ["--porcelain", g] = .ok () := by
  refine (validate_command_ok_iff_aux _ _).mpr ⟨by decide, ?_⟩
  intro a ha hd
  simp only [List.mem_cons, List.not_mem_nil, or_false] at ha
  rcases ha with rfl | rfl
  · decide
  · rw [hg] at hd
    cases hd

/-- Embeds `run("add", path)` passes command validation for any non-flag-like
path. -/
theorem validate_command_add_ok (g : String)
    (hg : startsWithChar '-' g = false) :
    validate_command "add" [g] = .ok () := by
  refine (validate_command_ok_iff_aux _ _).mpr ⟨by decide, ?_⟩
  intro a ha hd
  simp only [List.mem_cons, List.not_mem_nil, or_false] at ha
  rcases ha with rfl
  rw [hg] at hd
  cases hd

/-- Claim C6 (Add verification): once the path passes file-path validation
(and is not flag-like, so the git invocations themselves validate),
`add_file` raises exactly when the path had pending working-tree changes
before the add and does not appear in the re-read staged-name list; with
no pending changes it returns normally regardless of the staged list. -/
theorem add_file_verification (repoParts : List (List Char)) (ctx : AddContext)
    (p vp : String)
    (hv : validate_file_path repoParts p = .ok vp)
    (hdash : startsWithChar '-' (backslashToSlash vp) = false) :
    (isError (add_file repoParts ctx p) ↔
      (pyStrip ctx.statusOut ≠ "" ∧
       backslashToSlash vp ∉ stagedNameList ctx.stagedAfter)) ∧
    (pyStrip ctx.statusOut = "" → add_file repoParts ctx p = .ok ()) := by
  have hst := validate_command_status_ok (backslashToSlash vp) hdash
  have had := validate_command_add_ok (backslashToSlash vp) hdash
  have hdf : validate_command "diff" ["--cached", "--name-only"] = .ok () := by
    decide
  simp only [add_file, hv, hst, had, hdf]
  by_cases hch : pyStrip ctx.statusOut = ""
  · rw [if_neg (not_not_intro hch)]
    exact ⟨by simp [hch], fun _ => rfl⟩
  · rw [if_pos hch]
    by_cases hmem : backslashToSlash vp ∈ stagedNameList ctx.stagedAfter
    · rw [if_pos hmem]
      exact ⟨by simp [hmem], fun h => absurd h hch⟩
    · rw [if_neg hmem]
      exact ⟨by simp [hch, hmem], fun h => absurd h hch⟩

/-- Witness for C6: a validated path with no pending changes is a no-op
add, not an error. -/
theorem add_file_verification_witness :
    (validate_file_path [['/'], "r".data] "docs/a.md" = .ok "docs/a.md") ∧
    add_file [['/'], "r".data] ⟨"", ""⟩ "docs/a.md" = .ok () :=
  ⟨by decide,
   (add_file_verification [['/'], "r".data] ⟨"", ""⟩ "docs/a.md" "docs/a.md"
      (by decide) (by decide)).2 rfl⟩

/-- Claim C7 counterexample: the empty message has at most 5000 characters
but is not passed to the commit verb — `commit` raises on it. -/
theorem commit_empty_message_cex :
    pyLen "" ≤ 5000 ∧ commit "repo" "" = .error "Commit message cannot be empty" := by
  decide

/-- Claim C7 amended: a message longer than 5000 characters raises before
the commit verb is invoked; a *non-empty* message of at most 5000
characters that is not itself flag-like reaches the commit verb
unmodified (the empty message also raises, and a `-`-prefixed message
outside the flag set is stopped by command validation). -/
theorem commit_spec (repo message : String) :
    (pyLen message > 5000 → isError (commit repo message)) ∧
    (message ≠ "" → pyLen message ≤ 5000 →
      startsWithChar '-' message = false →
      commit repo message = .ok ["git", "-C", repo, "commit", "-m", message]) := by
  constructor
  · intro h
    unfold commit
    by_cases h0 : message = ""
    · rw [if_pos h0]
      exact isError_error _
    · rw [if_neg h0, if_pos h]
      exact isError_error _
  · intro h0 hlen hd
    unfold commit
    rw [if_neg h0, if_neg (by omega)]
    have hvc : validate_command "commit" ["-m", message] = .ok () := by
      refine (validate_command_ok_iff_aux _ _).mpr ⟨by decide, ?_⟩
      intro a ha hdd
      simp only [List.mem_cons, List.not_mem_nil, or_false] at ha
      rcases ha with rfl | rfl
      · decide
      · rw [hd] at hdd
        cases hdd
    rw [hvc]
    rfl

/-- Witness for the amended C7 at a concrete message. -/
theorem commit_spec_witness :
    commit "r" "hello msg" = .ok ["git", "-C", "r", "commit", "-m", "hello msg"] :=
  (commit_spec "r" "hello msg").2 (by decide) (by decide) (by decide)

/-- The effect of a successful `track_file_creation`: exactly one append
to `created_files` (even when the path is already present), with
`modified_files` untouched. -/
theorem track_file_creation_ok_effect (fs : FsOracle) (t : FileTracker)
    (p : String) (t' : FileTracker)
    (h : track_file_creation fs t p = .ok t') :
    t'.created_files = t.created_files ++ [trackerNormalize p] ∧
    t'.modified_files = t.modified_files := by
  simp only [track_file_creation] at h
  by_cases hl : t.created_files.length ≥ MAX_FILES
  · rw [if_pos hl] at h
    cases h
  · rw [if_neg hl] at h
    cases hfs : fs (trackerNormalize p) with
    | some sz =>
      simp only [hfs] at h
      by_cases h1 : sz > MAX_FILE_SIZE
      · rw [if_pos h1] at h
        cases h
      · rw [if_neg h1] at h
        by_cases h2 : t.total_size_tracked + sz > MAX_TOTAL_SIZE
        · rw [if_pos h2] at h
          cases h
        · rw [if_neg h2] at h
          injection h with h
          rw [← h]
          exact ⟨rfl, rfl⟩
    | none =>
      simp only [hfs] at h
      injection h with h
      rw [← h]
      exact ⟨rfl, rfl⟩

/-- Claim C8 counterexample: tracking `docs/dup.md` twice succeeds, the
per-category list then holds the path twice, and `get_summary` reports
`files_created = 2` — the reported count does not reflect the
de-duplicated set (which has the path once). -/
theorem track_dedup_counts_cex :
    ((track_file_creation (fun _ => none) FileTracker.init "docs/dup.md").bind
      (fun t1 => track_file_creation (fun _ => none) t1 "docs/dup.md")) =
      .ok ⟨["docs/dup.md", "docs/dup.md"], [], [], 0⟩ ∧
    (get_summary ⟨["docs/dup.md", "docs/dup.md"], [], [], 0⟩).files_created = 2 ∧
    get_all_tracked_files ⟨["docs/dup.md", "docs/dup.md"], [], [], 0⟩ =
      ["docs/dup.md"] := by
  decide

/-- Claim C8 amended: the union view `get_all_tracked_files` (and hence the
summary's `total_files`) is de-duplicated — a doubly-tracked path occurs
exactly once in it — but the per-category lists append on every call, so
the `files_created` counts of `get_summary` and of the manifest count
the path twice. -/
theorem track_dedup_spec (fs : FsOracle) (t t1 t2 : FileTracker) (p : String)
    (h1 : track_file_creation fs t p = .ok t1)
    (h2 : track_file_creation fs t1 p = .ok t2) :
    (get_all_tracked_files t2).count (trackerNormalize p) = 1 ∧
    (get_summary t2).total_files = (get_all_tracked_files t2).length ∧
    (get_summary t2).files_created = t.created_files.length + 2 ∧
    (generate_commit_manifest t2).files_created = t.created_files.length + 2 := by
  obtain ⟨hc1, _⟩ := track_file_creation_ok_effect fs t p t1 h1
  obtain ⟨hc2, _⟩ := track_file_creation_ok_effect fs t1 p t2 h2
  refine ⟨?_, rfl, ?_, ?_⟩
  · have hmem : trackerNormalize p ∈ t2.created_files ++ t2.modified_files := by
      apply List.mem_append_left
      rw [hc2]
      exact List.mem_append_right _ (by simp)
    unfold get_all_tracked_files
    rw [List.count_dedup, if_pos hmem]
  · unfold get_summary
    rw [hc2, hc1]
    simp
  · unfold generate_commit_manifest
    rw [hc2, hc1]
    simp

/-- Witness for the amended C8 at the concrete doubly-tracked ledger. -/
theorem track_dedup_spec_witness :
    (get_all_tracked_files ⟨["docs/dup.md", "docs/dup.md"], [], [], 0⟩).count
        (trackerNormalize "docs/dup.md") = 1 ∧
    (get_summary ⟨["docs/dup.md", "docs/dup.md"], [], [], 0⟩).total_files =
      (get_all_tracked_files ⟨["docs/dup.md", "docs/dup.md"], [], [], 0⟩).length ∧
    (get_summary ⟨["docs/dup.md", "docs/dup.md"], [], [], 0⟩).files_created =
      FileTracker.init.created_files.length + 2 ∧
    (generate_commit_manifest
        ⟨["docs/dup.md", "docs/dup.md"], [], [], 0⟩).files_created =
      FileTracker.init.created_files.length + 2 :=
  track_dedup_spec (fun _ => none) FileTracker.init
    ⟨["docs/dup.md"], [], [], 0⟩ ⟨["docs/dup.md", "docs/dup.md"], [], [], 0⟩
    "docs/dup.md" (by decide) (by decide)

/-- Claim C9 (Validator pass criterion): `validate_all` returns `true` iff
all critical checks pass (`.git` present, clean working tree, git author
configuration, and — when a truthy candidate pattern is supplied — the
branch-conflict check); the branch-protection advisory and the
sensitive-filename scan never change the verdict: the result is
invariant under arbitrary changes to the current branch, the
`show-ref` probes and the untracked-file listing. -/
theorem validate_all_spec (rs : RepoState) (bp : Option String) :
    (validate_all rs bp = true ↔
      (validate_git_repository rs = true ∧
       validate_clean_working_tree rs = true ∧
       validate_git_config rs = true ∧
       ∀ pat, bp = some pat → pat ≠ "" →
         validate_no_conflicting_branches rs pat = true)) ∧
    (∀ cb m1 m2 ut,
      validate_all { rs with currentBranch := cb, mainShowRefRc := m1,
                             masterShowRefRc := m2, untrackedOut := ut } bp =
        validate_all rs bp) := by
  constructor
  · cases bp with
    | none =>
      simp [validate_all]
    | some pat =>
      by_cases hp : pat = ""
      · subst hp
        simp [validate_all]
      · simp [validate_all, hp]
  · intro cb m1 m2 ut
    rfl

/-- Witness for C9: a fully-passing repository state (with an untracked
`secrets.json` that is only a warning) validates with a pattern. -/
theorem validate_all_spec_witness :
    validate_all
      ⟨true, "", 0, "Test", 0, "t@example.com", fun _ => "", "main", 0, 1,
        ["secrets.json"]⟩ (some "feat/*") = true := by
  refine (validate_all_spec _ _).1.mpr ⟨by decide, by decide, by decide, ?_⟩
  intro pat hp hne
  cases hp
  decide

end GitHooks
